import Mathlib

/-!
Shallow embedding of `summarizer/utils.py` (TwiBot): the vector
representation and redundancy-control subsystem.  Python floats are
modelled by exact arithmetic: vector entries are rationals and the
cosine value is a real number (the square roots are irrational in
general).  Python exceptions become an explicit `Except` result:
`dimensionMismatch` models the failed length assertion in `cosine_sim`,
`malformedWeightFile` models the exception a bad data line raises in
`load_idf_weights`.
-/

namespace TwiBot

/-- Error kinds of the subsystem (the specification's names for the
exceptions the Python code raises). -/
inductive UtilError
  | dimensionMismatch
  | malformedWeightFile

deriving instance DecidableEq for UtilError

/-- A tokenized sentence. -/
abbrev Sentence := List String

/-- Helper for `pySplit`: scan the characters, accumulating the current
word in reverse; a whitespace character ends the pending word, and runs of
whitespace produce no empty words. -/
def pySplitAux (acc : List Char) : List Char → List String
  | [] => if acc.isEmpty then [] else [String.mk acc.reverse]
  | c :: cs =>
    if c.isWhitespace then
      if acc.isEmpty then pySplitAux [] cs
      else String.mk acc.reverse :: pySplitAux [] cs
    else pySplitAux (c :: acc) cs

/-- Python `line.split()`: split on runs of whitespace, dropping empty
pieces. -/
def pySplit (s : String) : List String :=
  pySplitAux [] s.toList

/-- Python `dict` lookup for a table built from key/value pairs in
insertion order (a later binding for the same key overwrites an earlier
one, hence the lookup in the reversed list). -/
def dictGet (d : List (String × ℚ)) (k : String) : Option ℚ :=
  List.lookup k d.reverse

/-- Python `feature_space(doc1, doc2)`: `sorted(set(doc1) | set(doc2))` —
the distinct tokens of the two documents (the deduplicated append is the
set union), in sorted order. -/
def feature_space (doc1 doc2 : Sentence) : List String :=
  List.insertionSort (fun a b => a ≤ b) (doc1 ++ doc2).dedup

/-- Python `binary_vectorize(feature_space, doc)`. -/
def binary_vectorize (fs : List String) (doc : Sentence) : List ℚ :=
  fs.map (fun point => if point ∈ doc then 1 else 0)

/-- Python `freq_vectorize(feature_space, doc)`: the `defaultdict` of
counts gives, at each feature, the number of occurrences of that token in
`doc`. -/
def freq_vectorize (fs : List String) (doc : Sentence) : List ℚ :=
  fs.map (fun point => (doc.count point : ℚ))

/-- Python `tfidf_vectorize(feature_space, doc)`.  The Python function
re-reads the global IDF weight file on every call; here the loaded table
is the `idfs` parameter (the weight file is external input to the
repository). -/
def tfidf_vectorize (idfs : List (String × ℚ)) (fs : List String) (doc : Sentence) :
    List ℚ :=
  List.zipWith
    (fun freq point =>
      match dictGet idfs point with
      | some w => freq * w
      | none => 0)
    (freq_vectorize fs doc) fs

/-- Python `sum(v * w for v, w in zip(x, y))`. -/
def dotProduct (x y : List ℚ) : ℚ :=
  (List.zipWith (fun v w => v * w) x y).sum

/-- Python `sum(pow(v, 2) for v in x)`. -/
def normSq (x : List ℚ) : ℚ :=
  (x.map (fun v => v ^ 2)).sum

open Classical in
/-- The value `cosine_sim` computes on two equal-length vectors:
`top / bot` with `bot = sqrt(normSq x) * sqrt(normSq y)`; a zero `bot`
raises `ZeroDivisionError` in Python and the handler returns
`top / 0.00001` instead. -/
noncomputable def cosVal (x y : List ℚ) : ℝ :=
  let top : ℝ := (dotProduct x y : ℝ)
  let bot : ℝ := Real.sqrt (normSq x : ℝ) * Real.sqrt (normSq y : ℝ)
  if bot = 0 then top / 0.00001 else top / bot

/-- Python `cosine_sim(x, y)` without the optional vectorize argument: the
failure of `assert len(x) == len(y)` is the `dimensionMismatch` error. -/
noncomputable def cosine_sim (x y : List ℚ) : Except UtilError ℝ :=
  if x.length = y.length then Except.ok (cosVal x y)
  else Except.error UtilError.dimensionMismatch

/-- Python `cosine_sim(x, y, vect_fun)`: build the pairwise feature space,
vectorize both token lists, then compare the vectors. -/
noncomputable def cosine_sim_vect (vect_fun : List String → Sentence → List ℚ)
    (x y : Sentence) : Except UtilError ℝ :=
  cosine_sim (vect_fun (feature_space x y) x) (vect_fun (feature_space x y) y)

open Classical in
/-- Python `is_repeat(sent, sents, vect_fun, max_sim)`: scan the accepted
sentences in order, returning `true` on the first whose cosine similarity
with `sent` strictly exceeds `max_sim`; a raised exception propagates. -/
noncomputable def is_repeat (sent : Sentence) (sents : List Sentence)
    (vect_fun : List String → Sentence → List ℚ) (max_sim : ℚ) :
    Except UtilError Bool :=
  match sents with
  | [] => Except.ok false
  | other_sent :: rest =>
    match cosine_sim (vect_fun (feature_space sent other_sent) sent)
        (vect_fun (feature_space sent other_sent) other_sent) with
    | Except.error e => Except.error e
    | Except.ok c =>
      if c > (max_sim : ℝ) then Except.ok true
      else is_repeat sent rest vect_fun max_sim

/-- One data line of the weight file: Python `line.split()[0]` and
`float(line.split()[1])`; a line with fewer than two whitespace-separated
fields or a non-numeric weight field raises.  `parseFloat` stands for
Python's `float` builtin (an external collaborator): it returns `none`
exactly on the non-numeric strings. -/
def loadLines (parseFloat : String → Option ℚ) :
    List String → Except UtilError (List (String × ℚ))
  | [] => Except.ok []
  | line :: rest =>
    match pySplit line with
    | tok :: w :: _ =>
      match parseFloat w with
      | some q => (loadLines parseFloat rest).map (fun t => (tok, q) :: t)
      | none => Except.error UtilError.malformedWeightFile
    | _ => Except.error UtilError.malformedWeightFile

/-- Python `load_idf_weights()`: `f.readline()` consumes the first line
(the header), then the dict comprehension parses every remaining line; any
bad line makes the whole load fail, so no partial table is produced.  The
weight file's lines are the `lines` parameter (the file is external input
to the repository). -/
def load_idf_weights (parseFloat : String → Option ℚ) (lines : List String) :
    Except UtilError (List (String × ℚ)) :=
  match lines with
  | [] => Except.ok []
  | _header :: rest => loadLines parseFloat rest

/-- Whether a data line of the weight file parses: at least two
whitespace-separated fields, with a numeric second field. -/
def goodLine (parseFloat : String → Option ℚ) (line : String) : Bool :=
  match pySplit line with
  | _ :: w :: _ => (parseFloat w).isSome
  | _ => false

/-- Python `MAX_SIM_CUTOFF = 0.4`, the default redundancy threshold. -/
def MAX_SIM_CUTOFF : ℚ := 0.4

/-! ### Arithmetic helper lemmas -/

lemma normSq_nil : normSq [] = 0 := rfl

lemma normSq_cons (a : ℚ) (x : List ℚ) : normSq (a :: x) = a ^ 2 + normSq x := by
  simp [normSq]

lemma normSq_nonneg (x : List ℚ) : 0 ≤ normSq x := by
  induction x with
  | nil => simp [normSq]
  | cons a x ih =>
    have := sq_nonneg a
    rw [normSq_cons]
    linarith

lemma normSq_eq_zero_iff (x : List ℚ) : normSq x = 0 ↔ ∀ e ∈ x, e = 0 := by
  induction x with
  | nil => simp [normSq]
  | cons a x ih =>
    rw [normSq_cons]
    constructor
    · intro h
      have h1 : 0 ≤ a ^ 2 := sq_nonneg a
      have h2 : 0 ≤ normSq x := normSq_nonneg x
      have ha : a ^ 2 = 0 := by linarith
      have hx : normSq x = 0 := by linarith
      have ha' : a = 0 := by
        have h2 := sq_eq_zero_iff.1 ha
        exact h2
      intro e he
      rcases List.mem_cons.1 he with h | h
      · exact h ▸ ha'
      · exact ih.1 hx e h
    · intro h
      have ha : a = 0 := h a (List.mem_cons_self a x)
      have hx : normSq x = 0 := ih.2 (fun e he => h e (List.mem_cons_of_mem a he))
      rw [ha, hx]
      norm_num

lemma dotProduct_nil_left (y : List ℚ) : dotProduct [] y = 0 := rfl

lemma dotProduct_cons (a b : ℚ) (x y : List ℚ) :
    dotProduct (a :: x) (b :: y) = a * b + dotProduct x y := by
  simp [dotProduct]

lemma dotProduct_self (v : List ℚ) : dotProduct v v = normSq v := by
  induction v with
  | nil => rfl
  | cons a v ih => rw [dotProduct_cons, normSq_cons, ih, sq]

lemma dotProduct_eq_zero_left (x y : List ℚ) (h : ∀ e ∈ x, e = 0) :
    dotProduct x y = 0 := by
  induction x generalizing y with
  | nil => rfl
  | cons a x ih =>
    cases y with
    | nil => rfl
    | cons b y =>
      have ha : a = 0 := h a (List.mem_cons_self a x)
      rw [dotProduct_cons, ha, ih y (fun e he => h e (List.mem_cons_of_mem a he))]
      ring

lemma dotProduct_eq_zero_right (x y : List ℚ) (h : ∀ e ∈ y, e = 0) :
    dotProduct x y = 0 := by
  induction x generalizing y with
  | nil => rfl
  | cons a x ih =>
    cases y with
    | nil => rfl
    | cons b y =>
      have hb : b = 0 := h b (List.mem_cons_self b y)
      rw [dotProduct_cons, hb, ih y (fun e he => h e (List.mem_cons_of_mem b he))]
      ring

lemma dotProduct_nonneg (x y : List ℚ) (hx : ∀ e ∈ x, 0 ≤ e) (hy : ∀ e ∈ y, 0 ≤ e) :
    0 ≤ dotProduct x y := by
  induction x generalizing y with
  | nil => exact le_refl 0
  | cons a x ih =>
    cases y with
    | nil => exact le_refl 0
    | cons b y =>
      rw [dotProduct_cons]
      have ha : 0 ≤ a := hx a (List.mem_cons_self a x)
      have hb : 0 ≤ b := hy b (List.mem_cons_self b y)
      have hr : 0 ≤ dotProduct x y :=
        ih y (fun e he => hx e (List.mem_cons_of_mem a he))
          (fun e he => hy e (List.mem_cons_of_mem b he))
      have := mul_nonneg ha hb
      linarith

lemma dotProduct_eq_sum (x : List ℚ) : ∀ (y : List ℚ), x.length = y.length →
    dotProduct x y = ∑ i ∈ Finset.range x.length, x.getD i 0 * y.getD i 0 := by
  induction x with
  | nil => intro y _; simp [dotProduct]
  | cons a x ih =>
    intro y hlen
    cases y with
    | nil => simp at hlen
    | cons b y =>
      have hlen' : x.length = y.length := by simpa using hlen
      rw [dotProduct_cons, ih y hlen']
      rw [List.length_cons, Finset.sum_range_succ']
      simp [add_comm]

lemma normSq_eq_sum (x : List ℚ) :
    normSq x = ∑ i ∈ Finset.range x.length, x.getD i 0 ^ 2 := by
  induction x with
  | nil => simp [normSq]
  | cons a x ih =>
    rw [normSq_cons, ih, List.length_cons, Finset.sum_range_succ']
    simp [add_comm]

/-- Cauchy-Schwarz for the list dot product, squared form over `ℚ`. -/
lemma sq_dotProduct_le (x y : List ℚ) (h : x.length = y.length) :
    dotProduct x y ^ 2 ≤ normSq x * normSq y := by
  rw [dotProduct_eq_sum x y h, normSq_eq_sum x, normSq_eq_sum y, ← h]
  exact Finset.sum_mul_sq_le_sq_mul_sq (Finset.range x.length)
    (fun i => x.getD i 0) (fun i => y.getD i 0)

/-! ### Lemmas about the cosine value -/

lemma cosVal_eq_ite (x y : List ℚ) : cosVal x y =
    if Real.sqrt ((normSq x : ℚ) : ℝ) * Real.sqrt ((normSq y : ℚ) : ℝ) = 0
    then ((dotProduct x y : ℚ) : ℝ) / 0.00001
    else ((dotProduct x y : ℚ) : ℝ) /
      (Real.sqrt ((normSq x : ℚ) : ℝ) * Real.sqrt ((normSq y : ℚ) : ℝ)) := rfl

lemma cosVal_of_zero_left (x y : List ℚ) (h : ∀ e ∈ x, e = 0) : cosVal x y = 0 := by
  have hn : normSq x = 0 := (normSq_eq_zero_iff x).2 h
  have hd : dotProduct x y = 0 := dotProduct_eq_zero_left x y h
  rw [cosVal_eq_ite, hn, hd]
  simp

lemma cosVal_of_zero_right (x y : List ℚ) (h : ∀ e ∈ y, e = 0) : cosVal x y = 0 := by
  have hn : normSq y = 0 := (normSq_eq_zero_iff y).2 h
  have hd : dotProduct x y = 0 := dotProduct_eq_zero_right x y h
  rw [cosVal_eq_ite, hn, hd]
  simp

lemma cosVal_self (v : List ℚ) (hv : ∃ e ∈ v, e ≠ 0) : cosVal v v = 1 := by
  have hn : normSq v ≠ 0 := by
    intro h0
    rcases hv with ⟨e, he, hne⟩
    exact hne ((normSq_eq_zero_iff v).1 h0 e he)
  have hpos : 0 < normSq v := lt_of_le_of_ne (normSq_nonneg v) (Ne.symm hn)
  have hposR : (0 : ℝ) < ((normSq v : ℚ) : ℝ) := by exact_mod_cast hpos
  have hbot : Real.sqrt ((normSq v : ℚ) : ℝ) * Real.sqrt ((normSq v : ℚ) : ℝ)
      = ((normSq v : ℚ) : ℝ) := Real.mul_self_sqrt hposR.le
  rw [cosVal_eq_ite, dotProduct_self, hbot, if_neg (by positivity)]
  exact div_self hposR.ne'

lemma cosVal_nonneg (x y : List ℚ) (hx : ∀ e ∈ x, 0 ≤ e) (hy : ∀ e ∈ y, 0 ≤ e) :
    0 ≤ cosVal x y := by
  have ht : (0 : ℝ) ≤ ((dotProduct x y : ℚ) : ℝ) := by
    exact_mod_cast dotProduct_nonneg x y hx hy
  rw [cosVal_eq_ite]
  split_ifs with hb
  · positivity
  · exact div_nonneg ht (mul_nonneg (Real.sqrt_nonneg _) (Real.sqrt_nonneg _))

lemma cosVal_le_one (x y : List ℚ) (h : x.length = y.length) : cosVal x y ≤ 1 := by
  rw [cosVal_eq_ite]
  split_ifs with hb
  · rcases mul_eq_zero.1 hb with h0 | h0
    · have : ((normSq x : ℚ) : ℝ) ≤ 0 := Real.sqrt_eq_zero'.1 h0
      have hnx : normSq x = 0 :=
        le_antisymm (by exact_mod_cast this) (normSq_nonneg x)
      have hd : dotProduct x y = 0 :=
        dotProduct_eq_zero_left x y ((normSq_eq_zero_iff x).1 hnx)
      rw [hd]
      norm_num
    · have : ((normSq y : ℚ) : ℝ) ≤ 0 := Real.sqrt_eq_zero'.1 h0
      have hny : normSq y = 0 :=
        le_antisymm (by exact_mod_cast this) (normSq_nonneg y)
      have hd : dotProduct x y = 0 :=
        dotProduct_eq_zero_right x y ((normSq_eq_zero_iff y).1 hny)
      rw [hd]
      norm_num
  · have hbnn : 0 ≤ Real.sqrt ((normSq x : ℚ) : ℝ) * Real.sqrt ((normSq y : ℚ) : ℝ) :=
      mul_nonneg (Real.sqrt_nonneg _) (Real.sqrt_nonneg _)
    have hbpos : 0 < Real.sqrt ((normSq x : ℚ) : ℝ) * Real.sqrt ((normSq y : ℚ) : ℝ) :=
      lt_of_le_of_ne hbnn (Ne.symm hb)
    rw [div_le_one hbpos]
    have hcs : ((dotProduct x y : ℚ) : ℝ) ^ 2 ≤ ((normSq x : ℚ) : ℝ) * ((normSq y : ℚ) : ℝ) := by
      exact_mod_cast sq_dotProduct_le x y h
    calc ((dotProduct x y : ℚ) : ℝ)
        ≤ |((dotProduct x y : ℚ) : ℝ)| := le_abs_self _
      _ = Real.sqrt (((dotProduct x y : ℚ) : ℝ) ^ 2) := (Real.sqrt_sq_eq_abs _).symm
      _ ≤ Real.sqrt (((normSq x : ℚ) : ℝ) * ((normSq y : ℚ) : ℝ)) := Real.sqrt_le_sqrt hcs
      _ = Real.sqrt ((normSq x : ℚ) : ℝ) * Real.sqrt ((normSq y : ℚ) : ℝ) := by
          rw [Real.sqrt_mul (by exact_mod_cast normSq_nonneg x)]

lemma cosine_sim_eq_ok (x y : List ℚ) (h : x.length = y.length) :
    cosine_sim x y = Except.ok (cosVal x y) := if_pos h

lemma cosine_sim_eq_error (x y : List ℚ) (h : ¬ x.length = y.length) :
    cosine_sim x y = Except.error UtilError.dimensionMismatch := if_neg h

/-! ### Vector lengths and the redundancy filter -/

lemma length_binary_vectorize (fs : List String) (doc : Sentence) :
    (binary_vectorize fs doc).length = fs.length := by
  simp [binary_vectorize]

lemma length_freq_vectorize (fs : List String) (doc : Sentence) :
    (freq_vectorize fs doc).length = fs.length := by
  simp [freq_vectorize]

lemma length_tfidf_vectorize (idfs : List (String × ℚ)) (fs : List String) (doc : Sentence) :
    (tfidf_vectorize idfs fs doc).length = fs.length := by
  simp [tfidf_vectorize, length_freq_vectorize]

/-- A vectorization strategy always returns a vector whose length is the
size of the feature space it is given. -/
def RespectsLength (vect_fun : List String → Sentence → List ℚ) : Prop :=
  ∀ (fs : List String) (s : Sentence), (vect_fun fs s).length = fs.length

lemma respectsLength_binary : RespectsLength binary_vectorize :=
  fun fs s => length_binary_vectorize fs s

lemma respectsLength_freq : RespectsLength freq_vectorize :=
  fun fs s => length_freq_vectorize fs s

lemma respectsLength_tfidf (idfs : List (String × ℚ)) :
    RespectsLength (tfidf_vectorize idfs) :=
  fun fs s => length_tfidf_vectorize idfs fs s

/-- The cosine similarity `is_repeat` computes between the candidate and one
accepted sentence: both are vectorized over their pairwise feature space. -/
noncomputable def pairSim (vect_fun : List String → Sentence → List ℚ)
    (sent other_sent : Sentence) : ℝ :=
  cosVal (vect_fun (feature_space sent other_sent) sent)
    (vect_fun (feature_space sent other_sent) other_sent)

lemma is_repeat_nil (sent : Sentence) (vect_fun : List String → Sentence → List ℚ)
    (max_sim : ℚ) : is_repeat sent [] vect_fun max_sim = Except.ok false := rfl

lemma is_repeat_cons (sent other_sent : Sentence) (rest : List Sentence)
    (vect_fun : List String → Sentence → List ℚ) (max_sim : ℚ)
    (hvf : RespectsLength vect_fun) :
    is_repeat sent (other_sent :: rest) vect_fun max_sim =
      if pairSim vect_fun sent other_sent > (max_sim : ℝ) then Except.ok true
      else is_repeat sent rest vect_fun max_sim := by
  have hlen : (vect_fun (feature_space sent other_sent) sent).length
      = (vect_fun (feature_space sent other_sent) other_sent).length := by
    rw [hvf, hvf]
  rw [is_repeat, cosine_sim_eq_ok _ _ hlen]
  rfl

/-- Characterization of `is_repeat` when the strategy respects feature-space
lengths: it never fails, and it returns `true` exactly when some accepted
sentence's pairwise similarity with the candidate strictly exceeds the
threshold. -/
lemma is_repeat_char (sent : Sentence) (vect_fun : List String → Sentence → List ℚ)
    (max_sim : ℚ) (hvf : RespectsLength vect_fun) :
    ∀ sents : List Sentence, ∃ b : Bool,
      is_repeat sent sents vect_fun max_sim = Except.ok b ∧
      (b = true ↔ ∃ other_sent ∈ sents, pairSim vect_fun sent other_sent > (max_sim : ℝ)) := by
  intro sents
  induction sents with
  | nil =>
    refine ⟨false, is_repeat_nil sent vect_fun max_sim, ?_⟩
    simp
  | cons other_sent rest ih =>
    rcases ih with ⟨b, hb, hiff⟩
    by_cases hgt : pairSim vect_fun sent other_sent > (max_sim : ℝ)
    · refine ⟨true, ?_, ?_⟩
      · rw [is_repeat_cons sent other_sent rest vect_fun max_sim hvf, if_pos hgt]
      · simp only [true_iff]
        exact ⟨other_sent, List.mem_cons_self other_sent rest, hgt⟩
    · refine ⟨b, ?_, ?_⟩
      · rw [is_repeat_cons sent other_sent rest vect_fun max_sim hvf, if_neg hgt]
        exact hb
      · rw [hiff]
        constructor
        · rintro ⟨o, ho, hgt'⟩
          exact ⟨o, List.mem_cons_of_mem other_sent ho, hgt'⟩
        · rintro ⟨o, ho, hgt'⟩
          rcases List.mem_cons.1 ho with h | h
          · exact absurd (h ▸ hgt') hgt
          · exact ⟨o, h, hgt'⟩

lemma is_repeat_ok_true_iff (sent : Sentence) (sents : List Sentence)
    (vect_fun : List String → Sentence → List ℚ) (max_sim : ℚ)
    (hvf : RespectsLength vect_fun) :
    is_repeat sent sents vect_fun max_sim = Except.ok true ↔
      ∃ other_sent ∈ sents, pairSim vect_fun sent other_sent > (max_sim : ℝ) := by
  rcases is_repeat_char sent vect_fun max_sim hvf sents with ⟨b, hb, hiff⟩
  rw [hb]
  simp only [Except.ok.injEq]
  exact hiff

lemma is_repeat_perm (sent : Sentence) (sents sents' : List Sentence)
    (vect_fun : List String → Sentence → List ℚ) (max_sim : ℚ)
    (hvf : RespectsLength vect_fun) (hperm : sents.Perm sents') :
    is_repeat sent sents vect_fun max_sim = is_repeat sent sents' vect_fun max_sim := by
  rcases is_repeat_char sent vect_fun max_sim hvf sents with ⟨b, hb, hiff⟩
  rcases is_repeat_char sent vect_fun max_sim hvf sents' with ⟨b', hb', hiff'⟩
  have hequiv : (∃ o ∈ sents, pairSim vect_fun sent o > (max_sim : ℝ)) ↔
      ∃ o ∈ sents', pairSim vect_fun sent o > (max_sim : ℝ) := by
    constructor
    · rintro ⟨o, ho, h⟩; exact ⟨o, hperm.mem_iff.1 ho, h⟩
    · rintro ⟨o, ho, h⟩; exact ⟨o, hperm.mem_iff.2 ho, h⟩
  have hbb : (b = true) ↔ (b' = true) := hiff.trans (hequiv.trans hiff'.symm)
  have : b = b' := by cases b <;> cases b' <;> simp_all
  rw [hb, hb', this]

/-! ### Lemmas about the TF-IDF vectorizer -/

/-- Pointwise description of the TF-IDF vector: raw frequency times the
table weight, with weight `0` for tokens absent from the table. -/
lemma tfidf_eq_map (idfs : List (String × ℚ)) (fs : List String) (doc : Sentence) :
    tfidf_vectorize idfs fs doc =
      fs.map (fun point => (doc.count point : ℚ) * ((dictGet idfs point).getD 0)) := by
  unfold tfidf_vectorize freq_vectorize
  rw [List.zipWith_map_left, List.zipWith_same]
  apply List.map_congr_left
  intro point _
  cases h : dictGet idfs point with
  | none => simp [h]
  | some w => simp [h]

lemma getD_map_of_lt (g : String → ℚ) (fs : List String) :
    ∀ i : ℕ, i < fs.length → (fs.map g).getD i 0 = g (fs.getD i "") := by
  induction fs with
  | nil => intro i hi; simp at hi
  | cons a fs ih =>
    intro i hi
    cases i with
    | zero => rfl
    | succ i =>
      have hi' : i < fs.length := by simpa using hi
      simpa using ih i hi'

lemma tfidf_zero_of_not_in_table (idfs : List (String × ℚ)) (fs : List String)
    (doc : Sentence) (h : ∀ tok ∈ doc, dictGet idfs tok = none) :
    ∀ e ∈ tfidf_vectorize idfs fs doc, e = 0 := by
  rw [tfidf_eq_map]
  intro e he
  rcases List.mem_map.1 he with ⟨point, _, rfl⟩
  by_cases hp : point ∈ doc
  · rw [h point hp]
    simp
  · rw [List.count_eq_zero.2 hp]
    simp

lemma binary_vectorize_empty (fs : List String) :
    ∀ e ∈ binary_vectorize fs [], e = 0 := by
  intro e he
  rcases List.mem_map.1 he with ⟨point, _, rfl⟩
  simp

lemma freq_vectorize_empty (fs : List String) :
    ∀ e ∈ freq_vectorize fs [], e = 0 := by
  intro e he
  rcases List.mem_map.1 he with ⟨point, _, rfl⟩
  simp

lemma tfidf_vectorize_empty (idfs : List (String × ℚ)) (fs : List String) :
    ∀ e ∈ tfidf_vectorize idfs fs [], e = 0 := by
  rw [tfidf_eq_map]
  intro e he
  rcases List.mem_map.1 he with ⟨point, _, rfl⟩
  simp

/-! ### Lemmas about loading the IDF weight table -/

lemma loadLines_ok_of_good (parseFloat : String → Option ℚ) :
    ∀ lines : List String, (∀ l ∈ lines, goodLine parseFloat l = true) →
      loadLines parseFloat lines = Except.ok (lines.map
        (fun l => ((pySplit l).getD 0 "", (parseFloat ((pySplit l).getD 1 "")).getD 0))) := by
  intro lines
  induction lines with
  | nil => intro _; rfl
  | cons line rest ih =>
    intro hgood
    have hline : goodLine parseFloat line = true :=
      hgood line (List.mem_cons_self line rest)
    have hrest : ∀ l ∈ rest, goodLine parseFloat l = true :=
      fun l hl => hgood l (List.mem_cons_of_mem line hl)
    rw [loadLines]
    cases hsp : pySplit line with
    | nil => rw [goodLine, hsp] at hline; simp at hline
    | cons tok ws =>
      cases ws with
      | nil => rw [goodLine, hsp] at hline; simp at hline
      | cons w rem =>
        rw [goodLine, hsp] at hline
        cases hpf : parseFloat w with
        | none => simp [hpf] at hline
        | some q =>
          rw [ih hrest]
          simp [hsp, hpf, Except.map]

lemma loadLines_error_of_bad (parseFloat : String → Option ℚ) :
    ∀ lines : List String, (∃ l ∈ lines, goodLine parseFloat l = false) →
      loadLines parseFloat lines = Except.error UtilError.malformedWeightFile := by
  intro lines
  induction lines with
  | nil => rintro ⟨l, hl, _⟩; simp at hl
  | cons line rest ih =>
    rintro ⟨l, hl, hbad⟩
    rw [loadLines]
    by_cases hline : goodLine parseFloat line = true
    · have hrest : ∃ l ∈ rest, goodLine parseFloat l = false := by
        rcases List.mem_cons.1 hl with h | h
        · rw [h] at hbad; rw [hbad] at hline; simp at hline
        · exact ⟨l, h, hbad⟩
      cases hsp : pySplit line with
      | nil => rfl
      | cons tok ws =>
        cases ws with
        | nil => rfl
        | cons w rem =>
          rw [goodLine, hsp] at hline
          cases hpf : parseFloat w with
          | none => simp [hpf]
          | some q => rw [ih hrest]; simp [hpf, Except.map]
    · rw [Bool.not_eq_true] at hline
      cases hsp : pySplit line with
      | nil => rfl
      | cons tok ws =>
        cases ws with
        | nil => rfl
        | cons w rem =>
          rw [goodLine, hsp] at hline
          cases hpf : parseFloat w with
          | none => simp [hpf]
          | some q => simp [hpf] at hline

/-- The candidate's vector being all-zero against every accepted sentence
forces `is_repeat` to answer `false` for any non-negative threshold: each
pairwise cosine value sits in the degenerate branch and equals `0`. -/
lemma is_repeat_false_of_zero (vect_fun : List String → Sentence → List ℚ)
    (hvf : RespectsLength vect_fun) (sent : Sentence) (sents : List Sentence) (t : ℚ)
    (ht : 0 ≤ t)
    (hz : ∀ other ∈ sents, ∀ e ∈ vect_fun (feature_space sent other) sent, e = 0) :
    is_repeat sent sents vect_fun t = Except.ok false := by
  rcases is_repeat_char sent vect_fun t hvf sents with ⟨b, hb, hiff⟩
  have hno : ¬ ∃ o ∈ sents, pairSim vect_fun sent o > (t : ℝ) := by
    rintro ⟨o, ho, hgt⟩
    have h0 : pairSim vect_fun sent o = 0 := cosVal_of_zero_left _ _ (hz o ho)
    rw [h0] at hgt
    have htR : (0 : ℝ) ≤ (t : ℝ) := by exact_mod_cast ht
    exact absurd hgt (not_lt.2 htR)
  have hbf : b = false := by
    cases b with
    | false => rfl
    | true => exact absurd (hiff.1 rfl) hno
  rw [hb, hbf]

/-! ### The claims -/

/-- Claim C1: `is_repeat` returns `true` exactly when some accepted sentence's
pairwise cosine similarity with the candidate (both vectorized over the
feature space built from just those two sentences) strictly exceeds the
threshold; consequently the boolean result does not depend on the order of
the accepted list.  (The embedding is pure, so the accepted list is never
mutated.) -/
theorem claim_C1 (vect_fun : List String → Sentence → List ℚ) (sent : Sentence)
    (sents : List Sentence) (max_sim : ℚ) (hvf : RespectsLength vect_fun) :
    (is_repeat sent sents vect_fun max_sim = Except.ok true ↔
      ∃ other_sent ∈ sents, pairSim vect_fun sent other_sent > (max_sim : ℝ)) ∧
    (∀ sents' : List Sentence, sents.Perm sents' →
      is_repeat sent sents vect_fun max_sim = is_repeat sent sents' vect_fun max_sim) :=
  ⟨is_repeat_ok_true_iff sent sents vect_fun max_sim hvf,
   fun sents' hp => is_repeat_perm sent sents sents' vect_fun max_sim hvf hp⟩

/-- Claim C2: on equal-length vectors with non-negative entries `cosine_sim`
returns a value in `[0, 1]`, and on any non-zero non-negative vector
compared with itself it returns exactly `1`. -/
theorem claim_C2 (x y v : List ℚ) (hxy : x.length = y.length)
    (hx : ∀ e ∈ x, 0 ≤ e) (hy : ∀ e ∈ y, 0 ≤ e)
    (hv0 : ∀ e ∈ v, 0 ≤ e) (hv : ∃ e ∈ v, e ≠ 0) :
    (∃ c : ℝ, cosine_sim x y = Except.ok c ∧ 0 ≤ c ∧ c ≤ 1) ∧
    cosine_sim v v = Except.ok 1 := by
  constructor
  · exact ⟨cosVal x y, cosine_sim_eq_ok x y hxy,
      cosVal_nonneg x y hx hy, cosVal_le_one x y hxy⟩
  · rw [cosine_sim_eq_ok v v rfl, cosVal_self v hv]

/-- Claim C3 counterexample: the claim fails as stated.  The empty sentence is a
member of the accepted list `[[]]`, yet `is_repeat` answers `false` under
the TF-IDF strategy at the default threshold: both vectors are empty, so
the cosine value comes from the zero-denominator branch and equals `0`,
not `1` (this holds for every IDF table; the empty table is used here). -/
theorem claim_C3_counterexample :
    (([] : Sentence) ∈ ([[]] : List Sentence)) ∧
    is_repeat [] [[]] (tfidf_vectorize []) MAX_SIM_CUTOFF = Except.ok false := by
  constructor
  · exact List.mem_cons_self _ _
  · rcases is_repeat_char [] (tfidf_vectorize []) MAX_SIM_CUTOFF
      (respectsLength_tfidf []) [[]] with ⟨b, hb, hiff⟩
    have hps : pairSim (tfidf_vectorize []) [] [] = 0 :=
      cosVal_of_zero_left _ _ (tfidf_vectorize_empty [] (feature_space [] []))
    have hno : ¬ ∃ o ∈ ([[]] : List Sentence),
        pairSim (tfidf_vectorize []) [] o > ((MAX_SIM_CUTOFF : ℚ) : ℝ) := by
      rintro ⟨o, ho, hgt⟩
      have ho' : o = ([] : Sentence) := by simpa using ho
      rw [ho', hps] at hgt
      have hcut : (0 : ℚ) ≤ MAX_SIM_CUTOFF := by norm_num [MAX_SIM_CUTOFF]
      have : (0 : ℝ) ≤ ((MAX_SIM_CUTOFF : ℚ) : ℝ) := by exact_mod_cast hcut
      exact absurd hgt (not_lt.2 this)
    have hbf : b = false := by
      cases b with
      | false => rfl
      | true => exact absurd (hiff.1 rfl) hno
    rw [hb, hbf]

/-- Claim C3 amended: if `S` is a member of the accepted list and `S`'s TF-IDF
vector over the feature space of `S` with itself is not all-zero (some
token of `S` carries a non-zero table weight), then `is_repeat` returns
`true` under TF-IDF for any threshold below `1`: the self-similarity is
exactly `1`.  The original claim fails when that vector is all-zero (empty
sentence, or no token in the table), see the counterexample. -/
theorem claim_C3 (idfs : List (String × ℚ)) (S : Sentence) (accepted : List Sentence)
    (max_sim : ℚ) (hmem : S ∈ accepted) (hth : max_sim < 1)
    (hnz : ∃ e ∈ tfidf_vectorize idfs (feature_space S S) S, e ≠ 0) :
    is_repeat S accepted (tfidf_vectorize idfs) max_sim = Except.ok true := by
  rw [is_repeat_ok_true_iff S accepted (tfidf_vectorize idfs) max_sim
    (respectsLength_tfidf idfs)]
  refine ⟨S, hmem, ?_⟩
  have h1 : pairSim (tfidf_vectorize idfs) S S = 1 := cosVal_self _ hnz
  rw [h1]
  exact_mod_cast hth

/-- Claim C4: when either equal-length non-negative vector is all-zero,
`cosine_sim` does not fail and returns exactly `0` (the dot product is `0`,
and the fallback division by `0.00001` leaves it `0`). -/
theorem claim_C4 (x y : List ℚ) (hxy : x.length = y.length)
    (hx : ∀ e ∈ x, 0 ≤ e) (hy : ∀ e ∈ y, 0 ≤ e)
    (hz : (∀ e ∈ x, e = 0) ∨ (∀ e ∈ y, e = 0)) :
    cosine_sim x y = Except.ok 0 := by
  rw [cosine_sim_eq_ok x y hxy]
  rcases hz with h | h
  · rw [cosVal_of_zero_left x y h]
  · rw [cosVal_of_zero_right x y h]

/-- Claim C5: the pairwise feature space is symmetric in its two arguments, so
the cosine similarity computed via the `(A, B)` feature space equals the
value computed via the `(B, A)` feature space, for any vectorization
strategy. -/
theorem claim_C5 (A B : Sentence) (vect_fun : List String → Sentence → List ℚ) :
    feature_space A B = feature_space B A ∧
    cosine_sim_vect vect_fun A B =
      cosine_sim (vect_fun (feature_space B A) A) (vect_fun (feature_space B A) B) := by
  have hfs : feature_space A B = feature_space B A := by
    have h1 : List.Sorted (fun a b : String => a ≤ b) (feature_space A B) :=
      List.sorted_insertionSort _ _
    have h2 : List.Sorted (fun a b : String => a ≤ b) (feature_space B A) :=
      List.sorted_insertionSort _ _
    have hp : (feature_space A B).Perm (feature_space B A) :=
      ((List.perm_insertionSort _ _).trans
        (List.perm_append_comm.dedup)).trans (List.perm_insertionSort _ _).symm
    exact List.eq_of_perm_of_sorted hp h1 h2
  refine ⟨hfs, ?_⟩
  rw [cosine_sim_vect, hfs]

/-- Claim C6: the TF-IDF vector holds, at each feature-space position, the raw
frequency of that token in the sentence times the table weight (`0` for a
token absent from the table); in particular the spec's Scenario B instance
evaluates to `[2, 0, 0, 0]`. -/
theorem claim_C6 (idfs : List (String × ℚ)) (fs doc : List String) (i : ℕ)
    (h : i < fs.length) :
    (tfidf_vectorize idfs fs doc).getD i 0 =
      (doc.count (fs.getD i "") : ℚ) * ((dictGet idfs (fs.getD i "")).getD 0) ∧
    tfidf_vectorize [("cat", 2), ("dog", 1)] ["cat", "dog", "sat", "the"]
      ["the", "cat", "sat"] = [2, 0, 0, 0] := by
  constructor
  · rw [tfidf_eq_map, getD_map_of_lt _ fs i h]
  · rw [tfidf_eq_map]
    simp [dictGet, List.lookup, List.count_cons]

/-- Claim C7: loading the IDF table skips the first line as a header (the result
does not depend on it); when every data line has at least two
whitespace-separated fields and a numeric weight, the result maps each
line's first field to its parsed second field; and one bad data line makes
the whole load fail with `malformedWeightFile`, producing no partial
table. -/
theorem claim_C7 (parseFloat : String → Option ℚ) (header header' : String)
    (rest : List String) :
    load_idf_weights parseFloat (header :: rest) =
      load_idf_weights parseFloat (header' :: rest) ∧
    ((∀ l ∈ rest, goodLine parseFloat l = true) →
      load_idf_weights parseFloat (header :: rest) = Except.ok (rest.map
        (fun l => ((pySplit l).getD 0 "", (parseFloat ((pySplit l).getD 1 "")).getD 0)))) ∧
    ((∃ l ∈ rest, goodLine parseFloat l = false) →
      load_idf_weights parseFloat (header :: rest) =
        Except.error UtilError.malformedWeightFile) := by
  refine ⟨rfl, ?_, ?_⟩
  · intro h; exact loadLines_ok_of_good parseFloat rest h
  · intro h; exact loadLines_error_of_bad parseFloat rest h

/-- Claim C8: on two vectors of different lengths `cosine_sim` fails with the
dimension-mismatch error instead of returning a value. -/
theorem claim_C8 (x y : List ℚ) (h : x.length ≠ y.length) :
    cosine_sim x y = Except.error UtilError.dimensionMismatch :=
  cosine_sim_eq_error x y h

/-- Claim C9: each of the three vectorization strategies returns a vector of
length equal to the feature-space size, so on the `is_repeat` call path
the equal-length check inside `cosine_sim` never fails: the result is
always `Except.ok`. -/
theorem claim_C9 (idfs : List (String × ℚ)) (fs : List String) (s sent : Sentence)
    (sents : List Sentence) (max_sim : ℚ) :
    ((binary_vectorize fs s).length = fs.length ∧
     (freq_vectorize fs s).length = fs.length ∧
     (tfidf_vectorize idfs fs s).length = fs.length) ∧
    ((∃ b, is_repeat sent sents binary_vectorize max_sim = Except.ok b) ∧
     (∃ b, is_repeat sent sents freq_vectorize max_sim = Except.ok b) ∧
     (∃ b, is_repeat sent sents (tfidf_vectorize idfs) max_sim = Except.ok b)) := by
  refine ⟨⟨length_binary_vectorize fs s, length_freq_vectorize fs s,
    length_tfidf_vectorize idfs fs s⟩, ?_, ?_, ?_⟩
  · rcases is_repeat_char sent binary_vectorize max_sim respectsLength_binary sents
      with ⟨b, hb, _⟩
    exact ⟨b, hb⟩
  · rcases is_repeat_char sent freq_vectorize max_sim respectsLength_freq sents
      with ⟨b, hb, _⟩
    exact ⟨b, hb⟩
  · rcases is_repeat_char sent (tfidf_vectorize idfs) max_sim
      (respectsLength_tfidf idfs) sents with ⟨b, hb, _⟩
    exact ⟨b, hb⟩

/-- Claim C10: a candidate whose vector against every accepted sentence is
all-zero is never reported redundant for any non-negative threshold; in
particular an empty candidate under each strategy, and under TF-IDF a
candidate none of whose tokens appears in the table. -/
theorem claim_C10 (vect_fun : List String → Sentence → List ℚ)
    (idfs : List (String × ℚ)) (sent : Sentence) (sents : List Sentence) (t : ℚ) :
    (RespectsLength vect_fun → 0 ≤ t →
      (∀ other ∈ sents, ∀ e ∈ vect_fun (feature_space sent other) sent, e = 0) →
      is_repeat sent sents vect_fun t = Except.ok false) ∧
    (0 ≤ t → is_repeat [] sents binary_vectorize t = Except.ok false) ∧
    (0 ≤ t → is_repeat [] sents freq_vectorize t = Except.ok false) ∧
    (0 ≤ t → is_repeat [] sents (tfidf_vectorize idfs) t = Except.ok false) ∧
    (0 ≤ t → (∀ tok ∈ sent, dictGet idfs tok = none) →
      is_repeat sent sents (tfidf_vectorize idfs) t = Except.ok false) := by
  refine ⟨?_, ?_, ?_, ?_, ?_⟩
  · intro hvf ht hz
    exact is_repeat_false_of_zero vect_fun hvf sent sents t ht hz
  · intro ht
    exact is_repeat_false_of_zero binary_vectorize respectsLength_binary [] sents t ht
      (fun other _ => binary_vectorize_empty _)
  · intro ht
    exact is_repeat_false_of_zero freq_vectorize respectsLength_freq [] sents t ht
      (fun other _ => freq_vectorize_empty _)
  · intro ht
    exact is_repeat_false_of_zero (tfidf_vectorize idfs) (respectsLength_tfidf idfs)
      [] sents t ht (fun other _ => tfidf_vectorize_empty idfs _)
  · intro ht htok
    exact is_repeat_false_of_zero (tfidf_vectorize idfs) (respectsLength_tfidf idfs)
      sent sents t ht
      (fun other _ => tfidf_zero_of_not_in_table idfs _ sent htok)

/-! ### Witnesses -/

/-- Witness for C1 at a concrete strategy, candidate, accepted list and
threshold. -/
theorem claim_C1_witness :
    RespectsLength (tfidf_vectorize [("a", 1)]) ∧
    ((is_repeat ["a"] [["a"]] (tfidf_vectorize [("a", 1)]) MAX_SIM_CUTOFF = Except.ok true ↔
      ∃ other_sent ∈ ([["a"]] : List Sentence),
        pairSim (tfidf_vectorize [("a", 1)]) ["a"] other_sent > ((MAX_SIM_CUTOFF : ℚ) : ℝ)) ∧
    (∀ sents' : List Sentence, ([["a"]] : List Sentence).Perm sents' →
      is_repeat ["a"] [["a"]] (tfidf_vectorize [("a", 1)]) MAX_SIM_CUTOFF =
        is_repeat ["a"] sents' (tfidf_vectorize [("a", 1)]) MAX_SIM_CUTOFF)) :=
  ⟨respectsLength_tfidf [("a", 1)],
   claim_C1 (tfidf_vectorize [("a", 1)]) ["a"] [["a"]] MAX_SIM_CUTOFF
     (respectsLength_tfidf [("a", 1)])⟩

/-- Witness for C2 at concrete vectors. -/
theorem claim_C2_witness :
    ([(1 : ℚ), 0].length = [(0 : ℚ), 2].length) ∧
    (∀ e ∈ [(1 : ℚ), 0], 0 ≤ e) ∧ (∀ e ∈ [(0 : ℚ), 2], 0 ≤ e) ∧
    (∀ e ∈ [(3 : ℚ)], 0 ≤ e) ∧ (∃ e ∈ [(3 : ℚ)], e ≠ 0) ∧
    ((∃ c : ℝ, cosine_sim [1, 0] [0, 2] = Except.ok c ∧ 0 ≤ c ∧ c ≤ 1) ∧
      cosine_sim [3] [3] = Except.ok 1) :=
  ⟨rfl, by norm_num, by norm_num, by norm_num, by norm_num,
   claim_C2 [1, 0] [0, 2] [3] rfl (by norm_num) (by norm_num) (by norm_num) (by norm_num)⟩

/-- Witness for the amended C3 at a concrete table, sentence and list. -/
theorem claim_C3_witness :
    ((["cat"] : Sentence) ∈ ([["cat"]] : List Sentence)) ∧ MAX_SIM_CUTOFF < 1 ∧
    (∃ e ∈ tfidf_vectorize [("cat", 1)] (feature_space ["cat"] ["cat"]) ["cat"], e ≠ 0) ∧
    is_repeat ["cat"] [["cat"]] (tfidf_vectorize [("cat", 1)]) MAX_SIM_CUTOFF =
      Except.ok true := by
  have hnz : ∃ e ∈ tfidf_vectorize [("cat", 1)] (feature_space ["cat"] ["cat"]) ["cat"],
      e ≠ 0 := by
    have hfs : feature_space ["cat"] ["cat"] = ["cat"] := rfl
    rw [hfs, tfidf_eq_map]
    simp [dictGet, List.lookup]
  have hth : MAX_SIM_CUTOFF < 1 := by norm_num [MAX_SIM_CUTOFF]
  exact ⟨by simp, hth, hnz,
    claim_C3 [("cat", 1)] ["cat"] [["cat"]] MAX_SIM_CUTOFF (by simp) hth hnz⟩

/-- Witness for C4 at concrete vectors with an all-zero left vector. -/
theorem claim_C4_witness :
    ([(0 : ℚ), 0].length = [(1 : ℚ), 2].length) ∧
    (∀ e ∈ [(0 : ℚ), 0], 0 ≤ e) ∧ (∀ e ∈ [(1 : ℚ), 2], 0 ≤ e) ∧
    (∀ e ∈ [(0 : ℚ), 0], e = 0) ∧
    cosine_sim [0, 0] [1, 2] = Except.ok 0 :=
  ⟨rfl, by norm_num, by norm_num, by norm_num,
   claim_C4 [0, 0] [1, 2] rfl (by norm_num) (by norm_num) (Or.inl (by norm_num))⟩

/-- Witness for C6 at the first position of a concrete feature space. -/
theorem claim_C6_witness :
    0 < (["cat"] : List String).length ∧
    ((tfidf_vectorize [("cat", 2)] ["cat"] ["cat"]).getD 0 0 =
      ((["cat"] : List String).count ((["cat"] : List String).getD 0 "") : ℚ) *
        ((dictGet [("cat", 2)] ((["cat"] : List String).getD 0 "")).getD 0) ∧
     tfidf_vectorize [("cat", 2), ("dog", 1)] ["cat", "dog", "sat", "the"]
       ["the", "cat", "sat"] = [2, 0, 0, 0]) :=
  ⟨by decide, claim_C6 [("cat", 2)] ["cat"] ["cat"] 0 (by decide)⟩

/-- Witness for C7 at a concrete parser and weight file. -/
theorem claim_C7_witness :
    (∀ l ∈ ["cat 2.0"],
      goodLine (fun s => if s = "2.0" then some (2 : ℚ) else none) l = true) ∧
    load_idf_weights (fun s => if s = "2.0" then some (2 : ℚ) else none)
      ["header", "cat 2.0"] = Except.ok [("cat", 2)] := by
  have hg : ∀ l ∈ ["cat 2.0"],
      goodLine (fun s => if s = "2.0" then some (2 : ℚ) else none) l = true := by decide
  exact ⟨hg,
    (claim_C7 (fun s => if s = "2.0" then some (2 : ℚ) else none) "header" "h2"
      ["cat 2.0"]).2.1 hg⟩

/-- Witness for C8 at concrete vectors of different lengths. -/
theorem claim_C8_witness :
    ([(1 : ℚ)].length ≠ ([] : List ℚ).length) ∧
    cosine_sim [1] [] = Except.error UtilError.dimensionMismatch :=
  ⟨by decide, claim_C8 [1] [] (by decide)⟩

/-- Witness for C10: an empty candidate against a non-empty accepted list
under the binary strategy at the default threshold. -/
theorem claim_C10_witness :
    (0 : ℚ) ≤ MAX_SIM_CUTOFF ∧
    is_repeat [] [["b"]] binary_vectorize MAX_SIM_CUTOFF = Except.ok false :=
  ⟨by norm_num [MAX_SIM_CUTOFF],
   (claim_C10 binary_vectorize [] [] [["b"]] MAX_SIM_CUTOFF).2.1
     (by norm_num [MAX_SIM_CUTOFF])⟩

end TwiBot
